import Mathlib

/-!
Verification of the genmsg repository: a shallow embedding of the SLIP
framing layer (src/slip.py, src/slip_light.py) and of the schema-loading
logic of the message generator (src/genmsg.py), together with theorems
settling the specification claims about them.

Bytes are modelled as `Nat` (Python byte values are 0..255; the embedded
functions compare against exact constants, so no masking is needed).
Python ints appearing in schemas are modelled as `Int`.
-/

/-! ## SLIP framing (class Slip in src/slip.py and src/slip_light.py) -/

def SLIP_END : Nat := 0xC0
def SLIP_ESC : Nat := 0xDB
def SLIP_ESC_END : Nat := 0xDC
def SLIP_ESC_ESC : Nat := 0xDD

inductive SlipState where
  | waitEnd
  | escaping
  | storeIncoming
deriving DecidableEq, Repr

/-- Decoder state: `state` and the receive buffer `rx` (Slip.__init__). -/
structure Slip where
  state : SlipState
  rx : List Nat
deriving DecidableEq, Repr

def Slip.init : Slip := ⟨SlipState.waitEnd, []⟩

/-- Slip.decode: decode one byte, returning the new state and an optional
completed payload (the source mutates `self` and returns `rx` or `None`). -/
def Slip.decode (s : Slip) (b : Nat) : Slip × Option (List Nat) :=
  match s.state with
  | SlipState.waitEnd =>
      if b = SLIP_END then (⟨SlipState.storeIncoming, s.rx⟩, none)
      else (s, none)
  | SlipState.escaping =>
      if b = SLIP_ESC_ESC then (⟨SlipState.storeIncoming, s.rx ++ [SLIP_ESC]⟩, none)
      else if b = SLIP_ESC_END then (⟨SlipState.storeIncoming, s.rx ++ [SLIP_END]⟩, none)
      else (⟨SlipState.storeIncoming, s.rx ++ [b]⟩, none)
  | SlipState.storeIncoming =>
      if b = SLIP_ESC then (⟨SlipState.escaping, s.rx⟩, none)
      else if b = SLIP_END then
        if 0 < s.rx.length then (⟨SlipState.waitEnd, []⟩, some s.rx)
        else (s, none)
      else (⟨SlipState.storeIncoming, s.rx ++ [b]⟩, none)

/-- Body of the encode loop for one input byte. -/
def Slip.escapeByte (b : Nat) : List Nat :=
  if b = SLIP_END then [SLIP_ESC, SLIP_ESC_END]
  else if b = SLIP_ESC then [SLIP_ESC, SLIP_ESC_ESC]
  else [b]

def Slip.encodeBody : List Nat → List Nat
  | [] => []
  | b :: rest => Slip.escapeByte b ++ Slip.encodeBody rest

/-- Slip.encode: END, escaped body, END. -/
def Slip.encode (buf : List Nat) : List Nat :=
  SLIP_END :: (Slip.encodeBody buf ++ [SLIP_END])

/-- Feed a list of bytes one at a time through the decoder, collecting in
order every completed payload it returns. -/
def Slip.run : Slip → List Nat → Slip × List (List Nat)
  | s, [] => (s, [])
  | s, b :: rest =>
    let step := Slip.decode s b
    let next := Slip.run step.1 rest
    match step.2 with
    | none => next
    | some p => (next.1, p :: next.2)

/-- The decode transition function exactly as the specification words it
(spec section 4.5, "Decode transitions").  Used to compare the source
decoder against the spec. -/
def slipSpecStep (s : Slip) (b : Nat) : Slip × Option (List Nat) :=
  match s.state with
  | SlipState.waitEnd =>
      if b = SLIP_END then (⟨SlipState.storeIncoming, s.rx⟩, none)
      else (s, none)
  | SlipState.storeIncoming =>
      if b = SLIP_ESC then (⟨SlipState.escaping, s.rx⟩, none)
      else if b = SLIP_END ∧ s.rx ≠ [] then (⟨SlipState.waitEnd, []⟩, some s.rx)
      else if b = SLIP_END ∧ s.rx = [] then (s, none)
      else (⟨SlipState.storeIncoming, s.rx ++ [b]⟩, none)
  | SlipState.escaping =>
      if b = SLIP_ESC_ESC then (⟨SlipState.storeIncoming, s.rx ++ [SLIP_ESC]⟩, none)
      else if b = SLIP_ESC_END then (⟨SlipState.storeIncoming, s.rx ++ [SLIP_END]⟩, none)
      else (⟨SlipState.storeIncoming, s.rx ++ [b]⟩, none)

/-! ## CRC-16/CCITT (SlipPayload.crc16_ccitt in src/slip.py) -/

/-- One iteration of the crc16_ccitt loop: given the split crc `(msb, lsb)`
and the data byte `c`, return the updated `(msb, lsb)`. -/
def crc16_round (msb lsb c : Nat) : Nat × Nat :=
  let x := c ^^^ msb
  let x := x ^^^ (x >>> 4)
  ((lsb ^^^ (x >>> 3) ^^^ (x <<< 4)) &&& 255, (x ^^^ (x <<< 5)) &&& 255)

def crc16_go : Nat → Nat → List Nat → Nat
  | msb, lsb, [] => (msb <<< 8) + lsb
  | msb, lsb, c :: rest =>
    match crc16_round msb lsb c with
    | (msb1, lsb1) => crc16_go msb1 lsb1 rest

/-- SlipPayload.crc16_ccitt(crc, data). -/
def crc16_ccitt (crc : Nat) (data : List Nat) : Nat :=
  crc16_go (crc >>> 8) (crc &&& 255) data

/-- The per-byte update exactly as written in spec section 4.8. -/
def crc16_spec_round (msb lsb byte : Nat) : Nat × Nat :=
  let x0 := byte ^^^ msb
  let x1 := x0 ^^^ (x0 >>> 4)
  ((lsb ^^^ (x1 >>> 3) ^^^ (x1 <<< 4)) &&& 0xFF, (x1 ^^^ (x1 <<< 5)) &&& 0xFF)

/-! ## Heavy payload (class SlipPayload in src/slip.py) -/

/-- Result of a successful SlipPayload.get_msg: the header fields and the
raw data slice handed to the message constructor.  The source then builds
a SlipPayload around `messages.msg_creator(pid, len(data), data)`; the
`messages` module is generated code absent from src/, so the constructed
object is modelled by these three components. -/
structure SlipPayloadMsg where
  pid : Nat
  seq : Nat
  data : List Nat
deriving DecidableEq

/-- struct.unpack lttle-endian 16-bit: low byte first. -/
def le16 (lo hi : Nat) : Nat := lo + 256 * hi

/-- SlipPayload.get_msg (heavy variant, src/slip.py lines 132-158).
Header format "<BBB" (3 bytes), CRC format "<H" (2 bytes).  Faithful to
the source for inputs of length at least 3 (shorter inputs make
struct.unpack raise in Python rather than return None). -/
def SlipPayload_get_msg (data : List Nat) : Option SlipPayloadMsg :=
  let pid := data.getD 0 0
  let seq := data.getD 1 0
  let len := data.getD 2 0
  let expected_length : Int := (data.length : Int) - 3 - 2
  if (len : Int) ≠ expected_length then none
  else
    let crc := le16 (data.getD (3 + len) 0) (data.getD (3 + len + 1) 0)
    let computed_crc := crc16_ccitt 0xFFFF (data.take (3 + len))
    if crc ≠ computed_crc then none
    else some ⟨pid, seq, (data.take (data.length - 2)).drop 3⟩

/-! ## Light payload and transaction (src/slip_light.py) -/

/-- Light SlipPayload: `pid` plus its data bytes.  The source stores
`messages.msg_creator(pid, len(data), data)` in `self.data`; `messages`
is generated code absent from src/, so the payload is modelled by the
pid and the raw bytes. -/
structure LightPayload where
  pid : Nat
  data : List Nat
deriving DecidableEq

/-- Light SlipPayload.pack: struct.pack("<B", pid) followed by the data
bytes. -/
def LightPayload.pack (p : LightPayload) : List Nat := p.pid :: p.data

/-- Outcome of the slip_transaction read loop.  `done` is the list the
function returns; `crashed` models the AttributeError raised when
SlipPayload.get_msg returns None (the source then evaluates None.pid);
`blocked` models the blocking read once the given input is exhausted. -/
inductive TxResult where
  | done (msgs : List LightPayload)
  | crashed
  | blocked
deriving DecidableEq

/-- The read loop of slip_transaction (src/slip_light.py lines 185-199)
over a finite list of incoming bytes.  `getMsg` stands for the light
SlipPayload.get_msg, whose length check calls struct_fmt of the generated
`messages` module (absent from src/), so it is a parameter here. -/
def slip_transaction_loop (getMsg : List Nat → Option LightPayload) (reqPid : Nat) :
    Slip → List LightPayload → List Nat → TxResult
  | _, _, [] => TxResult.blocked
  | s, acc, b :: rest =>
    match Slip.decode s b with
    | (s1, none) => slip_transaction_loop getMsg reqPid s1 acc rest
    | (s1, some rx) =>
      match getMsg rx with
      | none => TxResult.crashed
      | some m =>
        if m.pid = reqPid ||| 0x80 then TxResult.done (acc ++ [m])
        else slip_transaction_loop getMsg reqPid s1 (acc ++ [m]) rest

/-- slip_transaction: encodes and writes `Slip.encode (slip_msg.pack())`
(first component), then runs the read loop from a fresh framer state
(second component). -/
def slip_transaction (getMsg : List Nat → Option LightPayload) (slip_msg : LightPayload)
    (input : List Nat) : List Nat × TxResult :=
  (Slip.encode slip_msg.pack, slip_transaction_loop getMsg slip_msg.pid Slip.init [] input)

/-! ## Field type parsing (class StructField in src/genmsg.py) -/

/-- Python \w on the ASCII range: letters, digits, underscore. -/
def isWordChar (c : Char) : Bool := c.isAlphanum || c == '_'

/-- The match of `array_re = re.compile(r"^\w+\[(\d*)\]")` against a type
string: longest nonempty word-character prefix, a literal bracket, a
longest (possibly empty) digit run — the captured group, returned here —
then a closing bracket.  `none` when the regex does not match.  (The
regex is deterministic: neither `\w+` nor `\d*` can backtrack into a
successful match.) -/
def parseArraySuffix (t : List Char) : Option (List Char) :=
  if (t.takeWhile isWordChar).isEmpty then none
  else
    match t.dropWhile isWordChar with
    | [] => none
    | c :: r2 =>
      if c = '[' then
        match r2.dropWhile Char.isDigit with
        | [] => none
        | c2 :: _ => if c2 = ']' then some (r2.takeWhile Char.isDigit) else none
      else none

/-- Python str.isdecimal on the captured group: nonempty and all digits. -/
def isdecimalStr (d : List Char) : Bool := !d.isEmpty && d.all Char.isDigit

/-- `re.match("\s*", s)`: a zero-width match always succeeds at position
zero, so this is constantly true (making the assert branch below dead). -/
def reMatchWsStar (_ : List Char) : Bool := true

def digitsToNat (d : List Char) : Nat :=
  d.foldl (fun n c => 10 * n + (c.toNat - '0'.toNat)) 0

/-- The array-classification part of StructField.__init__ (src/genmsg.py
lines 688-701): `some n` for a fixed-size array of length n, `some (-1)`
for a variable-size array, `none` for a non-array field; `Except.error`
models the `assert False, "Invalid size ..."` branch. -/
def structFieldArrayLen (t : List Char) : Except String (Option Int) :=
  match parseArraySuffix t with
  | none => Except.ok none
  | some d =>
    if isdecimalStr d then Except.ok (some (digitsToNat d : Int))
    else if reMatchWsStar d then Except.ok (some (-1))
    else Except.error "Invalid size for array"

/-- A schema field as given in the message definition tree. -/
structure FieldDesc where
  name : String
  ftype : List Char
  desc : String
deriving DecidableEq

/-- The state StructField.__init__ leaves behind: the declared parts plus
the computed array_len. -/
structure StructFieldM where
  name : String
  field_type : List Char
  desc : String
  array_len : Option Int
deriving DecidableEq

/-- StructField.__init__ on one field description. -/
def mkStructField (f : FieldDesc) : Except String StructFieldM :=
  match structFieldArrayLen f.ftype with
  | Except.error e => Except.error e
  | Except.ok al => Except.ok ⟨f.name, f.ftype, f.desc, al⟩

/-- mapM over Except, written out so proofs can unfold it directly. -/
def exceptMapM (f : α → Except String β) : List α → Except String (List β)
  | [] => Except.ok []
  | a :: l =>
    match f a with
    | Except.error e => Except.error e
    | Except.ok b =>
      match exceptMapM f l with
      | Except.error e => Except.error e
      | Except.ok bs => Except.ok (b :: bs)

/-- MessageElt.check_message (src/genmsg.py lines 1419-1426): raise iff
some field name is duplicated (`len(names) != len(set(names))`). -/
def check_message (msgName : String) (fields : List StructFieldM) : Except String Unit :=
  if (fields.map StructFieldM.name).Nodup then Except.ok ()
  else Except.error ("duplicated field name in " ++ msgName)

/-- Field construction of MessageElt.__init__ followed by check_message:
everything the loader validates about a message's field list. -/
def mkMessage (name : String) (fields : List FieldDesc) : Except String (List StructFieldM) :=
  match exceptMapM mkStructField fields with
  | Except.error e => Except.error e
  | Except.ok sfs =>
    match check_message name sfs with
    | Except.error e => Except.error e
    | Except.ok _ => Except.ok sfs

/-! ## Bitfields and enums (classes Bits, BitField, EnumElt in src/genmsg.py) -/

structure EnumEntryM where
  name : String
  value : Int
  desc : String
deriving DecidableEq

structure EnumEltM where
  name : String
  entries : List EnumEntryM
deriving DecidableEq

/-- Idealisation of EnumElt.get_enum_bit_width: the number of bits needed
to code the maximum entry value (the running maximum starts at 0), as the
exact ceiling logarithm `Nat.clog 2 (max_val + 1)`.  It is NOT a faithful
embedding of the source, which computes `math.ceil(math.log(max_val + 1,
2))` with IEEE doubles through the platform libm: that float computation
overshoots the exact ceiling on inputs such as max_val = 2^29 - 1, where
`math.log(2^29, 2)` evaluates slightly above 29 and the source returns 30
instead of the 29 bits its own docstring promises, and it cannot be
evaluated by the kernel (Float.log is opaque).  The bitfield theorems
below therefore never rely on the numeric value this function returns,
only on the structure of the construction around it. -/
def get_enum_bit_width (e : EnumEltM) : Nat :=
  Nat.clog 2 ((e.entries.foldl (fun m en => max m (EnumEntryM.value en)) 0).toNat + 1)

/-- A bits entry of a bitfield definition tree: name, position, desc are
required keys, width defaults to 1, enum is optional. -/
structure BitDesc where
  name : String
  position : Int
  desc : String
  width : Option Int
  enum : Option String
deriving DecidableEq

/-- The state class Bits carries after BitField.__init__ processed its
entry (pfx is the bitfield name passed as the Bits prefix). -/
structure BitsM where
  name : String
  position : Int
  desc : String
  pfx : String
  width : Int
  enum : Option String
deriving DecidableEq

/-- Bits.__eq__: compares name, position, desc, width and prefix (not the
attached enum). -/
def bitsEq (a b : BitsM) : Bool :=
  a.name == b.name && a.position == b.position && a.desc == b.desc
    && a.width == b.width && a.pfx == b.pfx

/-- Bits.upper_bit_pos. -/
def upper_bit_pos (b : BitsM) : Int := b.position + b.width - 1

/-- Bits.bit_conflicts: false for equal bits, false for disjoint position
ranges, true otherwise. -/
def bit_conflicts (a b : BitsM) : Bool :=
  if bitsEq a b then false
  else if upper_bit_pos a < b.position || a.position > upper_bit_pos b then false
  else true

/-- The per-entry part of BitField.__init__: build the Bits object with
declared width (default 1); when an enum is attached, require it to be
defined in the environment and override the width with the enum's bit
width. -/
def mkBit (env : String → Option EnumEltM) (pfx : String) (d : BitDesc) : Except String BitsM :=
  let w := d.width.getD 1
  match d.enum with
  | none => Except.ok ⟨d.name, d.position, d.desc, pfx, w, none⟩
  | some n =>
    match env n with
    | none => Except.error ("Enum " ++ n ++ " must be defined before use")
    | some e => Except.ok ⟨d.name, d.position, d.desc, pfx, (get_enum_bit_width e : Int), some n⟩

/-- The loop of BitField.__init__ over the bits list: build each bit, then
assert it conflicts with none of the bits built so far. -/
def buildBitsAux (env : String → Option EnumEltM) (pfx : String) :
    List BitDesc → List BitsM → Except String (List BitsM)
  | [], acc => Except.ok acc
  | d :: rest, acc =>
    match mkBit env pfx d with
    | Except.error e => Except.error e
    | Except.ok bit =>
      if acc.all (fun ob => !(bit_conflicts bit ob)) then
        buildBitsAux env pfx rest (acc ++ [bit])
      else Except.error ("Bit position in " ++ pfx ++ " conflicts")

/-- BitField.__init__ (src/genmsg.py lines 436-482), reduced to the bits
it constructs. -/
def BitField_init (env : String → Option EnumEltM) (name : String)
    (descs : List BitDesc) : Except String (List BitsM) :=
  buildBitsAux env name descs []

/-- BitField.get_bitwidth: highest occupied bit position plus one (the
running maximum starts at 0). -/
def BitField_get_bitwidth (bits : List BitsM) : Int :=
  (bits.foldl (fun m b => max m (upper_bit_pos b)) 0) + 1

/-- bitwidth_to_ctype (src/genmsg.py lines 33-40). -/
def bitwidth_to_ctype (w : Int) : Option String :=
  if w ≤ 8 then some "uint8_t"
  else if w ≤ 16 then some "uint16_t"
  else if w ≤ 32 then some "uint32_t"
  else none

/-- BitField.get_base_type: asserts the bitwidth is at most 32, then maps
it to a C type.  This assert — not BitField.__init__ — is where the
32-bit bound is enforced, and it only runs when code is generated. -/
def BitField_get_base_type (name : String) (bits : List BitsM) : Except String (Option String) :=
  if BitField_get_bitwidth bits ≤ 32 then Except.ok (bitwidth_to_ctype (BitField_get_bitwidth bits))
  else Except.error ("Bitwidth for bitfield " ++ name ++ " must not exceed 32 bits")

/-! ## Helper lemmas on the SLIP decoder -/

theorem Slip.run_cons_none {s s1 : Slip} {b : Nat} {l : List Nat}
    (h : Slip.decode s b = (s1, none)) : Slip.run s (b :: l) = Slip.run s1 l := by
  simp [Slip.run, h]

theorem Slip.run_cons_some {s s1 : Slip} {b : Nat} {p : List Nat} {l : List Nat}
    (h : Slip.decode s b = (s1, some p)) :
    Slip.run s (b :: l) = ((Slip.run s1 l).1, p :: (Slip.run s1 l).2) := by
  simp [Slip.run, h]

theorem Slip.decode_store_esc (acc : List Nat) :
    Slip.decode ⟨SlipState.storeIncoming, acc⟩ SLIP_ESC = (⟨SlipState.escaping, acc⟩, none) := rfl

theorem Slip.decode_escaping_end (acc : List Nat) :
    Slip.decode ⟨SlipState.escaping, acc⟩ SLIP_ESC_END
      = (⟨SlipState.storeIncoming, acc ++ [SLIP_END]⟩, none) := rfl

theorem Slip.decode_escaping_esc (acc : List Nat) :
    Slip.decode ⟨SlipState.escaping, acc⟩ SLIP_ESC_ESC
      = (⟨SlipState.storeIncoming, acc ++ [SLIP_ESC]⟩, none) := rfl

theorem Slip.decode_store_plain (acc : List Nat) {b : Nat}
    (hEnd : b ≠ SLIP_END) (hEsc : b ≠ SLIP_ESC) :
    Slip.decode ⟨SlipState.storeIncoming, acc⟩ b
      = (⟨SlipState.storeIncoming, acc ++ [b]⟩, none) := by
  simp [Slip.decode, hEnd, hEsc]

theorem Slip.decode_wait_end (rx : List Nat) :
    Slip.decode ⟨SlipState.waitEnd, rx⟩ SLIP_END = (⟨SlipState.storeIncoming, rx⟩, none) := rfl

theorem Slip.decode_store_end {acc : List Nat} (h : acc ≠ []) :
    Slip.decode ⟨SlipState.storeIncoming, acc⟩ SLIP_END = (⟨SlipState.waitEnd, []⟩, some acc) := by
  simp [Slip.decode, SLIP_END, SLIP_ESC, List.length_pos, h]

/-- Running the escaped body of a buffer from STORE_INCOMING appends the
buffer to the receive buffer, emits nothing, and stays in STORE_INCOMING. -/
theorem Slip.run_encodeBody (buf : List Nat) : ∀ (acc rest : List Nat),
    Slip.run ⟨SlipState.storeIncoming, acc⟩ (Slip.encodeBody buf ++ rest)
      = Slip.run ⟨SlipState.storeIncoming, acc ++ buf⟩ rest := by
  induction buf with
  | nil => intro acc rest; simp [Slip.encodeBody]
  | cons b t ih =>
    intro acc rest
    by_cases hEnd : b = SLIP_END
    · subst hEnd
      have hbody : Slip.encodeBody (SLIP_END :: t) ++ rest
          = SLIP_ESC :: SLIP_ESC_END :: (Slip.encodeBody t ++ rest) := by
        simp [Slip.encodeBody, Slip.escapeByte]
      rw [hbody, Slip.run_cons_none (Slip.decode_store_esc acc),
        Slip.run_cons_none (Slip.decode_escaping_end acc), ih]
      simp
    by_cases hEsc : b = SLIP_ESC
    · subst hEsc
      have hbody : Slip.encodeBody (SLIP_ESC :: t) ++ rest
          = SLIP_ESC :: SLIP_ESC_ESC :: (Slip.encodeBody t ++ rest) := by
        simp [Slip.encodeBody, Slip.escapeByte, SLIP_ESC, SLIP_END]
      rw [hbody, Slip.run_cons_none (Slip.decode_store_esc acc),
        Slip.run_cons_none (Slip.decode_escaping_esc acc), ih]
      simp
    · have hbody : Slip.encodeBody (b :: t) ++ rest = b :: (Slip.encodeBody t ++ rest) := by
        simp [Slip.encodeBody, Slip.escapeByte, hEnd, hEsc]
      rw [hbody, Slip.run_cons_none (Slip.decode_store_plain acc hEnd hEsc), ih]
      simp

/-! ## Claim theorems about the SLIP layer -/

/-- Claim C1 (amended): for every non-empty byte buffer `b`, feeding the
bytes of `Slip.encode b` one at a time to a fresh decoder yields exactly
one non-None result, equal to `b`; END and ESC bytes inside `b` survive
the round-trip. -/
theorem slip_encode_roundtrip (b : List Nat) (hb : b ≠ []) :
    (Slip.run Slip.init (Slip.encode b)).2 = [b] := by
  show (Slip.run ⟨SlipState.waitEnd, []⟩ (SLIP_END :: (Slip.encodeBody b ++ [SLIP_END]))).2 = [b]
  rw [Slip.run_cons_none (Slip.decode_wait_end []), Slip.run_encodeBody b [] [SLIP_END]]
  simp only [List.nil_append]
  rw [Slip.run_cons_some (Slip.decode_store_end hb)]
  simp [Slip.run]

/-- Witness for C1: the spec's S4 scenario buffer round-trips. -/
theorem slip_encode_roundtrip_witness :
    ([0xC0, 0xDB, 0x00] : List Nat) ≠ [] ∧
      (Slip.run Slip.init (Slip.encode [0xC0, 0xDB, 0x00])).2 = [[0xC0, 0xDB, 0x00]] :=
  ⟨by decide, slip_encode_roundtrip [0xC0, 0xDB, 0x00] (by decide)⟩

/-- Counterexample to C1 as stated: for the empty buffer, the two encoded
bytes produce no payload at all, not exactly one. -/
theorem slip_roundtrip_empty_counterexample :
    Slip.encode [] = [0xC0, 0xC0] ∧ (Slip.run Slip.init (Slip.encode [])).2 = [] :=
  ⟨rfl, rfl⟩

/-- Claim C3: the decoder starts in WAIT_END, and its per-byte transition
function is exactly the three-state machine written in the spec. -/
theorem slip_decode_matches_spec :
    Slip.init.state = SlipState.waitEnd ∧ ∀ (s : Slip) (b : Nat), Slip.decode s b = slipSpecStep s b := by
  refine ⟨rfl, ?_⟩
  rintro ⟨st, rx⟩ b
  cases st with
  | waitEnd => rfl
  | escaping => rfl
  | storeIncoming =>
    by_cases h1 : b = SLIP_ESC
    · simp [Slip.decode, slipSpecStep, h1]
    by_cases h2 : b = SLIP_END
    · by_cases h3 : rx = []
      · simp [Slip.decode, slipSpecStep, h1, h2, h3]
      · simp [Slip.decode, slipSpecStep, h1, h2, h3, List.length_pos]
    · simp [Slip.decode, slipSpecStep, h1, h2]

/-- Claim C10: every payload the decoder returns is non-empty, and the two
bytes encoding the empty buffer each produce None on a fresh decoder, so
an empty payload does not survive the SLIP round-trip. -/
theorem slip_decode_payload_nonempty (s : Slip) (b : Nat) (p : List Nat)
    (h : (Slip.decode s b).2 = some p) :
    1 ≤ p.length ∧ Slip.encode [] = [SLIP_END, SLIP_END] ∧
      (Slip.decode Slip.init SLIP_END).2 = none ∧
      (Slip.decode (Slip.decode Slip.init SLIP_END).1 SLIP_END).2 = none := by
  refine ⟨?_, rfl, rfl, rfl⟩
  obtain ⟨st, rx⟩ := s
  cases st with
  | waitEnd =>
    simp only [Slip.decode] at h
    split at h <;> simp at h
  | escaping =>
    simp only [Slip.decode] at h
    split at h
    · simp at h
    · split at h <;> simp at h
  | storeIncoming =>
    simp only [Slip.decode] at h
    split at h
    · simp at h
    · split at h
      · split at h
        · rename_i hlen
          simp at h
          exact h ▸ hlen
        · simp at h
      · simp at h

/-- Witness for C10: a concrete decode step that returns a payload. -/
theorem slip_decode_payload_nonempty_witness :
    (Slip.decode ⟨SlipState.storeIncoming, [5]⟩ SLIP_END).2 = some [5] ∧
      (1 ≤ ([5] : List Nat).length ∧ Slip.encode [] = [SLIP_END, SLIP_END] ∧
        (Slip.decode Slip.init SLIP_END).2 = none ∧
        (Slip.decode (Slip.decode Slip.init SLIP_END).1 SLIP_END).2 = none) :=
  ⟨rfl, slip_decode_payload_nonempty ⟨SlipState.storeIncoming, [5]⟩ SLIP_END [5] rfl⟩

/-- Claim C4: crc16_ccitt's per-byte update is exactly the spec's update,
and the two reference vectors hold: empty string gives 0xFFFF and the
ASCII bytes of the string of digits one through nine give 0x29B1. -/
theorem crc16_matches_spec_and_vectors :
    (∀ msb lsb c, crc16_round msb lsb c = crc16_spec_round msb lsb c) ∧
      crc16_ccitt 0xFFFF [] = 0xFFFF ∧
      crc16_ccitt 0xFFFF [0x31, 0x32, 0x33, 0x34, 0x35, 0x36, 0x37, 0x38, 0x39] = 0x29B1 :=
  ⟨fun _ _ _ => rfl, rfl, by decide⟩

/-! ## Claim theorems about the heavy payload -/

/-- Claim C2 (amended): for a received frame body of at least header size,
SlipPayload.get_msg accepts iff the len field equals total_bytes minus 5
(3-byte header plus 2-byte CRC) and the trailing little-endian CRC-16/CCITT
(initial 0xFFFF, over pid, seq, len and data) matches; on either mismatch
it returns None. -/
theorem get_msg_accepts_iff (data : List Nat) (h : 3 ≤ data.length) :
    (SlipPayload_get_msg data).isSome = true ↔
      ((data.getD 2 0 : Int) = (data.length : Int) - 5 ∧
        le16 (data.getD (data.length - 2) 0) (data.getD (data.length - 1) 0)
          = crc16_ccitt 0xFFFF (data.take (data.length - 2))) := by
  simp only [SlipPayload_get_msg]
  split_ifs with hc1 hc2
  · simp only [Option.isSome_none, Bool.false_eq_true, false_iff, not_and]
    intro hA
    exact absurd (by omega) hc1
  · simp only [Option.isSome_none, Bool.false_eq_true, false_iff, not_and]
    intro hA hB
    have hEq : ((data.getD 2 0 : Nat) : Int) = (data.length : Int) - 3 - 2 := not_not.mp hc1
    have e1 : 3 + data.getD 2 0 = data.length - 2 := by omega
    have e2 : data.length - 2 + 1 = data.length - 1 := by omega
    rw [e1, e2] at hc2
    exact hc2 hB
  · simp only [Option.isSome_some, true_iff]
    have hEq : ((data.getD 2 0 : Nat) : Int) = (data.length : Int) - 3 - 2 := not_not.mp hc1
    have e1 : 3 + data.getD 2 0 = data.length - 2 := by omega
    have e2 : data.length - 2 + 1 = data.length - 1 := by omega
    have hB := not_not.mp hc2
    rw [e1, e2] at hB
    exact ⟨by omega, hB⟩

/-- Witness for C2: a three-byte input (len field 0 but no room for data
and CRC) is rejected, matching the right-hand side being false. -/
theorem get_msg_accepts_iff_witness :
    3 ≤ ([0, 0, 0] : List Nat).length ∧
      ((SlipPayload_get_msg [0, 0, 0]).isSome = true ↔
        ((([0, 0, 0] : List Nat).getD 2 0 : Int) = (([0, 0, 0] : List Nat).length : Int) - 5 ∧
          le16 (([0, 0, 0] : List Nat).getD (([0, 0, 0] : List Nat).length - 2) 0)
              (([0, 0, 0] : List Nat).getD (([0, 0, 0] : List Nat).length - 1) 0)
            = crc16_ccitt 0xFFFF
                (([0, 0, 0] : List Nat).take (([0, 0, 0] : List Nat).length - 2)))) :=
  ⟨by decide, get_msg_accepts_iff [0, 0, 0] (by decide)⟩

/-- Counterexample to C2 as stated: the valid 5-byte frame pid=0, seq=0,
len=0 with its correct CRC 0xCC9C is accepted, yet its len field (0) is
total_bytes minus 5, not total_bytes minus 4. -/
theorem get_msg_length_counterexample :
    (SlipPayload_get_msg [0, 0, 0, 156, 204]).isSome = true ∧
      ¬((([0, 0, 0, 156, 204] : List Nat).getD 2 0 : Int)
          = (([0, 0, 0, 156, 204] : List Nat).length : Int) - 4) :=
  ⟨by decide, by decide⟩

/-! ## Claim theorems about the transaction layer -/

/-- The read loop, started in any framer state with any accumulator, only
finishes with the accumulated frames followed by the first response frame,
every frame in between being a non-response, and the newly read frames
forming the corresponding prefix of everything decodable from the input. -/
theorem slip_transaction_loop_spec (getMsg : List Nat → Option LightPayload) (reqPid : Nat) :
    ∀ (input : List Nat) (s : Slip) (acc l : List LightPayload),
      slip_transaction_loop getMsg reqPid s acc input = TxResult.done l →
      ∃ t r, l = acc ++ t ++ [r] ∧ r.pid = reqPid ||| 0x80 ∧
        (∀ m ∈ t, m.pid ≠ reqPid ||| 0x80) ∧
        ((Slip.run s input).2.take (t.length + 1)).map getMsg = (t ++ [r]).map some := by
  intro input
  induction input with
  | nil =>
    intro s acc l hdone
    simp [slip_transaction_loop] at hdone
  | cons b rest ih =>
    intro s acc l hdone
    rcases hdec : Slip.decode s b with ⟨s1, op⟩
    cases op with
    | none =>
      simp only [slip_transaction_loop, hdec] at hdone
      obtain ⟨t, r, hl, hr, hint, hfr⟩ := ih s1 acc l hdone
      exact ⟨t, r, hl, hr, hint, by rw [Slip.run_cons_none hdec]; exact hfr⟩
    | some rx =>
      simp only [slip_transaction_loop, hdec] at hdone
      cases hg : getMsg rx with
      | none => simp only [hg] at hdone; simp at hdone
      | some m =>
        simp only [hg] at hdone
        by_cases hp : m.pid = reqPid ||| 0x80
        · rw [if_pos hp] at hdone
          cases hdone
          refine ⟨[], m, by simp, hp, by simp, ?_⟩
          rw [Slip.run_cons_some hdec]
          simp [hg]
        · rw [if_neg hp] at hdone
          obtain ⟨t, r, hl, hr, hint, hfr⟩ := ih s1 (acc ++ [m]) l hdone
          refine ⟨m :: t, r, by simpa using hl, hr, ?_, ?_⟩
          · intro x hx
            rcases List.mem_cons.mp hx with hx1 | hx2
            · exact hx1 ▸ hp
            · exact hint x hx2
          · rw [Slip.run_cons_some hdec]
            simp only [List.length_cons, List.take_succ_cons, List.map_cons, hg,
              List.cons_append, List.map_cons]
            exact congrArg (some m :: ·) hfr

/-- Claim C5: slip_transaction writes the SLIP encoding of the packed
request and, whenever the read loop returns a list, that list consists of
all frames decoded from the incoming bytes in arrival order up to and
including the first frame whose pid is the request pid with bit 7 set,
which is its last element; every intermediate frame precedes it and is not
a response. -/
theorem slip_transaction_spec (getMsg : List Nat → Option LightPayload)
    (slip_msg : LightPayload) (input : List Nat) (l : List LightPayload)
    (h : (slip_transaction getMsg slip_msg input).2 = TxResult.done l) :
    (slip_transaction getMsg slip_msg input).1
        = Slip.encode (slip_msg.pid :: slip_msg.data) ∧
      ∃ t r, l = t ++ [r] ∧ r.pid = slip_msg.pid ||| 0x80 ∧
        (∀ m ∈ t, m.pid ≠ slip_msg.pid ||| 0x80) ∧
        ((Slip.run Slip.init input).2.take l.length).map getMsg = l.map some := by
  obtain ⟨t, r, hl, hr, hint, hfr⟩ :=
    slip_transaction_loop_spec getMsg slip_msg.pid input Slip.init [] l h
  have hl2 : l = t ++ [r] := by simpa using hl
  refine ⟨rfl, t, r, hl2, hr, hint, ?_⟩
  rw [hl2]
  simpa using hfr

/-- Witness for C5: a response frame with pid 0x83 answers a request with
pid 3 after one END delimiter. -/
theorem slip_transaction_spec_witness :
    (slip_transaction (fun d => some ⟨d.headD 0, d.drop 1⟩) ⟨3, []⟩ [0xC0, 0x83, 0xC0]).2
        = TxResult.done [⟨0x83, []⟩] ∧
      ((slip_transaction (fun d => some ⟨d.headD 0, d.drop 1⟩) ⟨3, []⟩ [0xC0, 0x83, 0xC0]).1
          = Slip.encode ((3 : Nat) :: ([] : List Nat)) ∧
        ∃ t r, ([⟨0x83, []⟩] : List LightPayload) = t ++ [r] ∧ r.pid = 3 ||| 0x80 ∧
          (∀ m ∈ t, m.pid ≠ 3 ||| 0x80) ∧
          ((Slip.run Slip.init [0xC0, 0x83, 0xC0]).2.take
              ([⟨0x83, []⟩] : List LightPayload).length).map (fun d => some ⟨d.headD 0, d.drop 1⟩)
            = ([⟨0x83, []⟩] : List LightPayload).map some) :=
  ⟨by decide, slip_transaction_spec (fun d => some ⟨d.headD 0, d.drop 1⟩) ⟨3, []⟩
    [0xC0, 0x83, 0xC0] [⟨0x83, []⟩] (by decide)⟩

/-! ## Claim theorems about field type parsing -/

/-- A run of characters satisfying `p` followed by a character refuting it
splits cleanly under takeWhile and dropWhile. -/
theorem takeWhile_all_append (p : Char → Bool) (l1 : List Char) (c : Char) (l2 : List Char)
    (h1 : l1.all p = true) (hc : p c = false) :
    (l1 ++ c :: l2).takeWhile p = l1 ∧ (l1 ++ c :: l2).dropWhile p = c :: l2 := by
  induction l1 with
  | nil => simp [List.takeWhile_cons, List.dropWhile_cons, hc]
  | cons a t ih =>
    rw [List.all_cons, Bool.and_eq_true] at h1
    obtain ⟨ha, ht⟩ := h1
    obtain ⟨iht, ihd⟩ := ih ht
    simp [List.takeWhile_cons, List.dropWhile_cons, ha, iht, ihd]

/-- The assert-False branch of the array classification is unreachable:
the captured group is either decimal or empty, and the empty string still
matches the zero-width whitespace regex. -/
theorem structFieldArrayLen_ok (t : List Char) : ∃ r, structFieldArrayLen t = Except.ok r := by
  cases hp : parseArraySuffix t with
  | none => exact ⟨none, by simp [structFieldArrayLen, hp]⟩
  | some d =>
    by_cases hd : isdecimalStr d = true
    · exact ⟨some (digitsToNat d : Int), by simp [structFieldArrayLen, hp, hd]⟩
    · exact ⟨some (-1), by simp [structFieldArrayLen, hp, hd, reMatchWsStar]⟩

/-- Claim C7 (amended): a type string of word characters followed by a
bracketed non-empty digit run parses as a fixed-size array of that decimal
length, a bracketed empty run parses as a variable-size array, and every
other type string is accepted as well — the rejection branch of
StructField.__init__ is unreachable, so a malformed array suffix is
silently classified as a non-array type rather than rejected. -/
theorem structField_array_classification :
    (∀ (base digits rest : List Char), base ≠ [] → base.all isWordChar = true →
        digits ≠ [] → digits.all Char.isDigit = true →
        structFieldArrayLen (base ++ '[' :: (digits ++ ']' :: rest))
          = Except.ok (some (digitsToNat digits : Int))) ∧
      (∀ (base rest : List Char), base ≠ [] → base.all isWordChar = true →
        structFieldArrayLen (base ++ '[' :: ']' :: rest) = Except.ok (some (-1))) ∧
      (∀ t : List Char, ∃ r, structFieldArrayLen t = Except.ok r) := by
  refine ⟨?_, ?_, structFieldArrayLen_ok⟩
  · intro base digits rest hb hbw hd hdd
    obtain ⟨ht1, hd1⟩ :=
      takeWhile_all_append isWordChar base '[' (digits ++ ']' :: rest) hbw (by decide)
    obtain ⟨ht2, hd2⟩ := takeWhile_all_append Char.isDigit digits ']' rest hdd (by decide)
    have hbe : base.isEmpty = false := by
      cases base with
      | nil => exact absurd rfl hb
      | cons a t => rfl
    have hdec : isdecimalStr digits = true := by
      cases digits with
      | nil => exact absurd rfl hd
      | cons c cs => simp [isdecimalStr, hdd]
    unfold structFieldArrayLen parseArraySuffix
    rw [ht1, hd1, hbe]
    simp [hd2, ht2, hdec]
  · intro base rest hb hbw
    obtain ⟨ht1, hd1⟩ := takeWhile_all_append isWordChar base '[' (']' :: rest) hbw (by decide)
    have hbe : base.isEmpty = false := by
      cases base with
      | nil => exact absurd rfl hb
      | cons a t => rfl
    have hdw : List.dropWhile Char.isDigit (']' :: rest) = ']' :: rest := by
      rw [List.dropWhile_cons, if_neg (by decide)]
    have htw : List.takeWhile Char.isDigit (']' :: rest) = [] := by
      rw [List.takeWhile_cons, if_neg (by decide)]
    unfold structFieldArrayLen parseArraySuffix
    rw [ht1, hd1, hbe]
    simp [hdw, htw, isdecimalStr, reMatchWsStar]

/-- Witness for C7: a one-letter base with digit 3 is a fixed array of
length 3. -/
theorem structField_array_classification_witness :
    ((['a'] : List Char) ≠ [] ∧ (['a'] : List Char).all isWordChar = true ∧
        (['3'] : List Char) ≠ [] ∧ (['3'] : List Char).all Char.isDigit = true) ∧
      structFieldArrayLen ((['a'] : List Char) ++ '[' :: ((['3'] : List Char) ++ ']' :: []))
        = Except.ok (some (3 : Int)) :=
  ⟨⟨by decide, by decide, by decide, by decide⟩,
    structField_array_classification.1 ['a'] ['3'] [] (by decide) (by decide)
      (by decide) (by decide)⟩

/-- Counterexample to C7 as stated: the malformed suffix in uint8_t[3a]
does not match the array regex, so the loader silently classifies the
field as a non-array type instead of rejecting it. -/
theorem structField_malformed_suffix_counterexample :
    structFieldArrayLen ("uint8_t[3a]".toList) = Except.ok none := rfl

/-! ## Claim theorems about message loading -/

/-- StructField construction never fails, and it preserves field names. -/
theorem exceptMapM_mkStructField_ok (fields : List FieldDesc) :
    ∃ sfs, exceptMapM mkStructField fields = Except.ok sfs ∧
      sfs.map StructFieldM.name = fields.map FieldDesc.name := by
  induction fields with
  | nil => exact ⟨[], rfl, rfl⟩
  | cons f t ih =>
    obtain ⟨sfs, hok, hnames⟩ := ih
    obtain ⟨r, hr⟩ := structFieldArrayLen_ok f.ftype
    refine ⟨⟨f.name, f.ftype, f.desc, r⟩ :: sfs, ?_, ?_⟩
    · simp only [exceptMapM, mkStructField, hr, hok]
    · simp [hnames]

/-- Claim C6 (amended): message loading does not check the position of
variable-length fields at all — a field list is accepted exactly when its
field names are distinct, regardless of where a variable-length array
occurs. -/
theorem mkMessage_ok_iff_nodup_names (name : String) (fields : List FieldDesc) :
    (∃ sfs, mkMessage name fields = Except.ok sfs) ↔ (fields.map FieldDesc.name).Nodup := by
  obtain ⟨sfs, hok, hnames⟩ := exceptMapM_mkStructField_ok fields
  by_cases hnd : (fields.map FieldDesc.name).Nodup
  · simp [mkMessage, hok, check_message, hnames, hnd]
  · simp [mkMessage, hok, check_message, hnames, hnd]

/-- Counterexample to C6 as stated: a message whose first field is a
variable-length array followed by another field loads cleanly — there is
no variable-field-not-last schema error. -/
theorem mkMessage_variable_not_last_counterexample :
    mkMessage "msg" [⟨"a", "uint8_t[]".toList, "da"⟩, ⟨"b", "uint8_t".toList, "db"⟩]
      = Except.ok [⟨"a", "uint8_t[]".toList, "da", some (-1)⟩,
          ⟨"b", "uint8_t".toList, "db", none⟩] := rfl

/-! ## Claim theorems about bitfield construction -/

/-- The construction loop preserves and extends pairwise non-conflict:
every bit it appends has been checked against all earlier ones. -/
theorem buildBitsAux_pairwise (env : String → Option EnumEltM) (pfx : String) :
    ∀ (descs : List BitDesc) (acc bits : List BitsM),
      acc.Pairwise (fun a b => bit_conflicts b a = false) →
      buildBitsAux env pfx descs acc = Except.ok bits →
      bits.Pairwise (fun a b => bit_conflicts b a = false) := by
  intro descs
  induction descs with
  | nil =>
    intro acc bits hacc hok
    simp only [buildBitsAux, Except.ok.injEq] at hok
    exact hok ▸ hacc
  | cons d rest ih =>
    intro acc bits hacc hok
    simp only [buildBitsAux] at hok
    cases hmk : mkBit env pfx d with
    | error e => simp [hmk] at hok
    | ok bit =>
      simp only [hmk] at hok
      by_cases hall : acc.all (fun ob => !(bit_conflicts bit ob)) = true
      · rw [if_pos hall] at hok
        refine ih (acc ++ [bit]) bits ?_ hok
        rw [List.pairwise_append]
        refine ⟨hacc, List.pairwise_singleton _ _, ?_⟩
        intro a ha b hb
        rw [List.mem_singleton] at hb
        subst hb
        have := List.all_eq_true.mp hall a ha
        simpa using this
      · rw [if_neg hall] at hok
        simp at hok

/-- Claim C8 (amended): a successfully constructed bitfield has pairwise
non-conflicting bits (any two are identical or occupy disjoint position
ranges), and the 32-bit bound is enforced not at construction but by the
assert in get_base_type, which fails on every bits list occupying more
than 32 bits. -/
theorem bitfield_construction_checks (env : String → Option EnumEltM) (name : String)
    (descs : List BitDesc) (bits : List BitsM)
    (h : BitField_init env name descs = Except.ok bits) :
    bits.Pairwise (fun a b => bit_conflicts b a = false) ∧
      (∀ (bfname : String) (bs : List BitsM), 32 < BitField_get_bitwidth bs →
        BitField_get_base_type bfname bs
          = Except.error ("Bitwidth for bitfield " ++ bfname ++ " must not exceed 32 bits")) := by
  constructor
  · exact buildBitsAux_pairwise env name descs [] bits List.Pairwise.nil h
  · intro bfname bs hgt
    unfold BitField_get_base_type
    rw [if_neg (by omega)]

/-- Witness for C8: a single one-bit field constructs successfully. -/
theorem bitfield_construction_checks_witness :
    BitField_init (fun _ => none) "bf" [⟨"x", 0, "d", none, none⟩]
        = Except.ok [⟨"x", 0, "d", "bf", 1, none⟩] ∧
      (List.Pairwise (fun a b => bit_conflicts b a = false) [⟨"x", 0, "d", "bf", 1, none⟩] ∧
        (∀ (bfname : String) (bs : List BitsM), 32 < BitField_get_bitwidth bs →
          BitField_get_base_type bfname bs
            = Except.error ("Bitwidth for bitfield " ++ bfname ++ " must not exceed 32 bits"))) :=
  ⟨rfl, bitfield_construction_checks (fun _ => none) "bf" [⟨"x", 0, "d", none, none⟩]
    [⟨"x", 0, "d", "bf", 1, none⟩] rfl⟩

/-- Counterexample to C8 as stated: a bitfield whose single bit occupies
33 bits is constructed without any load-time failure, although its total
occupied width exceeds 32. -/
theorem bitfield_width33_counterexample :
    BitField_init (fun _ => none) "wide" [⟨"w", 0, "d", some 33, none⟩]
        = Except.ok [⟨"w", 0, "d", "wide", 33, none⟩] ∧
      BitField_get_bitwidth [⟨"w", 0, "d", "wide", 33, none⟩] = 33 := by
  constructor
  · rfl
  · show max 0 (0 + 33 - 1) + 1 = 33
    decide

